import Mathlib

/-!
Shallow embedding of the ImageAnalysis repository (hlgirard/ImageAnalysis):
the ice-front tracking pipeline (`analysis-tools/analyze_front.py`) and the
bubble-detection pipeline (`xptools/analyze_bubbles.py`).

Frames are 2-D grids of 8-bit grayscale values, modelled as `List (List ℕ)`.
Library routines from skimage/scipy (morphological closing, connected-component
labeling, `threshold_minimum`, `threshold_otsu`, the watershed chain,
eccentricity moments, the interactive ROI selector) are external collaborators
of the code under analysis; they are passed in as function parameters, while
everything the repository's own lines do (slicing, thresholding comparisons,
region bookkeeping, `np.argmax` selection, the per-frame loop, the joblib
fan-out, caching, record construction) is translated directly from the source.
-/

/-- A grayscale frame: rows of pixel intensities (`np.array` of ubyte). -/
abbrev Img : Type := List (List ℕ)

/-- A binary mask, the result of `img > thresh`. -/
abbrev BImg : Type := List (List Bool)

/-- A labeled image: each pixel carries a region label, `0` = background. -/
abbrev LImg : Type := List (List ℕ)

/-- ROI rectangle `(minRow, minCol, maxRow, maxCol)` as produced by
`select_roi.select_rectangle` / `imagetools.obtain_cropping_boxes`. -/
structure CropBox where
  minRow : ℕ
  minCol : ℕ
  maxRow : ℕ
  maxCol : ℕ
deriving DecidableEq

/-- Numpy slicing `img[minRow:maxRow, minCol:maxCol]`.  Python slice
semantics: out-of-range bounds are clamped, never an error. -/
def crop (img : Img) (b : CropBox) : Img :=
  ((img.drop b.minRow).take (b.maxRow - b.minRow)).map
    (fun row => (row.drop b.minCol).take (b.maxCol - b.minCol))

/-- Width of a frame (length of its first row; frames are rectangular). -/
def imgWidth (img : Img) : ℕ := (img.getD 0 []).length

/-- The frame is a rectangular `h × w` grid. -/
def isRect (img : Img) (h w : ℕ) : Prop :=
  img.length = h ∧ ∀ row ∈ img, row.length = w

instance (img : Img) (h w : ℕ) : Decidable (isRect img h w) := by
  unfold isRect; infer_instance

/-- Error raised by the spec-level Cropper contract. -/
inductive CropError where
  | invalidRegion
deriving DecidableEq

/-- Modelled from the spec: the Cropper contract of spec section 4.2 — return
the sub-grid `[minRow:maxRow, minCol:maxCol]`, failing with
`InvalidRegionError` when the box exceeds the frame's bounds.  (No such check
exists in the source; this definition follows the spec's words, for comparison
with `crop`, which is the code's numpy slicing.) -/
def cropSpec (img : Img) (b : CropBox) : Except CropError Img :=
  if b.maxRow ≤ img.length ∧ b.maxCol ≤ imgWidth img then
    .ok (crop img b)
  else
    .error .invalidRegion

/-- All cells of a labeled image as `(row, col, value)` triples. -/
def cellsOf (g : LImg) : List (ℕ × ℕ × ℕ) :=
  (g.enum.map (fun p => p.2.enum.map (fun q => (p.1, q.1, q.2)))).flatten

/-- Coordinates of the pixels carrying label `l`. -/
def coordsOf (g : LImg) (l : ℕ) : List (ℕ × ℕ) :=
  (cellsOf g).filterMap (fun c => if c.2.2 = l then some (c.1, c.2.1) else none)

/-- Number of pixels with label `l` (the region's pixel area). -/
def countLabel (g : LImg) (l : ℕ) : ℕ := (coordsOf g l).length

/-- Minimum of a list of naturals (0 on the empty list). -/
def minOf : List ℕ → ℕ
  | [] => 0
  | x :: xs => xs.foldl min x

/-- Maximum of a list of naturals (0 on the empty list). -/
def maxOf : List ℕ → ℕ
  | [] => 0
  | x :: xs => xs.foldl max x

/-- Largest value occurring in a labeled image. -/
def maxVal (g : LImg) : ℕ := maxOf g.flatten

/-- The labels present in a labeled image, ascending, background 0 excluded.
`skimage.measure.regionprops` returns one region per positive label, sorted
by label; `ndi.label` assigns labels in raster-scan (first-encountered)
order, so this list order is discovery order. -/
def labelsOf (g : LImg) : List ℕ :=
  (List.range (maxVal g + 1)).filter (fun l => decide (l ≠ 0 ∧ 0 < countLabel g l))

/-- One connected region of a labeled image, as measured by `regionprops`:
pixel area and bounding box `(minr, minc, maxr, maxc)` with the skimage
convention that `maxr`/`maxc` are exclusive. -/
structure GridRegion where
  label : ℕ
  area : ℕ
  minr : ℕ
  minc : ℕ
  maxr : ℕ
  maxc : ℕ
deriving DecidableEq

/-- Bounding-box pixel area, `regionprops`' `bbox_area`. -/
def GridRegion.bboxArea (r : GridRegion) : ℕ :=
  (r.maxr - r.minr) * (r.maxc - r.minc)

/-- Region properties of one label. -/
def regionOf (g : LImg) (l : ℕ) : GridRegion :=
  let cs := coordsOf g l
  { label := l
    area := cs.length
    minr := minOf (cs.map (fun c => c.1))
    minc := minOf (cs.map (fun c => c.2))
    maxr := maxOf (cs.map (fun c => c.1)) + 1
    maxc := maxOf (cs.map (fun c => c.2)) + 1 }

/-- `regionprops(label_image)`: one `GridRegion` per positive label present,
in label order. -/
def gridRegions (g : LImg) : List GridRegion :=
  (labelsOf g).map (regionOf g)

/-- `maxList` of a list of naturals, `foldr` form used by the argmax spec. -/
def maxList : List ℕ → ℕ
  | [] => 0
  | x :: xs => max x (maxList xs)

/-- `np.argmax`: index of the first occurrence of the maximum (0 on `[]`,
where numpy instead raises; callers handle the empty case separately). -/
def argmax : List ℕ → ℕ
  | [] => 0
  | x :: xs => if maxList xs ≤ x then 0 else argmax xs + 1

theorem argmax_lt_length (xs : List ℕ) (h : xs ≠ []) : argmax xs < xs.length := by
  induction xs with
  | nil => exact absurd rfl h
  | cons x t ih =>
    by_cases hx : maxList t ≤ x
    · simp [argmax, hx]
    · have ht : t ≠ [] := by
        intro he; rw [he] at hx; exact hx (Nat.zero_le x)
      simp only [argmax, hx, if_false, List.length_cons]
      exact Nat.succ_lt_succ (ih ht)

theorem getD_argmax (xs : List ℕ) (h : xs ≠ []) :
    xs.getD (argmax xs) 0 = maxList xs := by
  induction xs with
  | nil => exact absurd rfl h
  | cons x t ih =>
    by_cases hx : maxList t ≤ x
    · simp [argmax, hx, maxList, Nat.max_eq_left hx]
    · have ht : t ≠ [] := by
        intro he; rw [he] at hx; exact hx (Nat.zero_le x)
      have hlt : x < maxList t := Nat.lt_of_not_le hx
      simp only [argmax, hx, if_false, maxList]
      have : (x :: t).getD (argmax t + 1) 0 = t.getD (argmax t) 0 := rfl
      rw [this, ih ht, Nat.max_eq_right (Nat.le_of_lt hlt)]

theorem getD_lt_argmax (xs : List ℕ) (j : ℕ) (hj : j < argmax xs) :
    xs.getD j 0 < maxList xs := by
  induction xs generalizing j with
  | nil => simp [argmax] at hj
  | cons x t ih =>
    by_cases hx : maxList t ≤ x
    · simp [argmax, hx] at hj
    · have hlt : x < maxList t := Nat.lt_of_not_le hx
      simp only [argmax, hx, if_false] at hj
      cases j with
      | zero =>
        simpa [maxList] using Nat.lt_of_lt_of_le hlt (Nat.le_max_right x (maxList t))
      | succ j =>
        have hj' : j < argmax t := Nat.lt_of_succ_lt_succ hj
        have := ih j hj'
        simpa [maxList] using Nat.lt_of_lt_of_le this (Nat.le_max_right x (maxList t))

/-- Failures of the front pipeline.  The spec names them abstractly
(`NoRegionFoundError` etc.); in the source they surface as the uncaught
Python exceptions noted on each constructor. -/
inductive FrontError where
  /-- `np.argmax` raises `ValueError` on the empty region list
  (spec: `NoRegionFoundError`). -/
  | noRegionFound
  /-- `.iloc[0]` raises `IndexError` when no cropping box matches the name. -/
  | missingCropBox
  /-- `stack[len(stack)//2]` raises `IndexError` on an empty stack. -/
  | emptyStack
  /-- `stack[len(stack) - 10]` raises `IndexError` in
  `obtain_cropping_boxes` when the index is out of range both ways. -/
  | roiIndexOutOfRange
deriving DecidableEq

/-- One row of the front pipeline's dataframe:
`[expName, stackIdx, area, minr, minc, maxr, maxc, area / img.shape[0]]`. -/
structure FrontRow where
  expName : String
  frame : ℕ
  area : ℕ
  minr : ℕ
  minc : ℕ
  maxr : ℕ
  maxc : ℕ
  heightPx : ℚ
deriving DecidableEq

/-- `img > thresh`: elementwise comparison producing a binary mask. -/
def binarize (img : Img) (thresh : ℕ) : BImg :=
  img.map (fun row => row.map (fun v => decide (thresh < v)))

/-- `analyze_front(img, thresh, expName, stackIdx)` from
`analyze_front.py`.  `segLib` stands for the library composition
`label(closing(mask, square(3)))` (skimage), producing the labeled image;
the thresholding, the `regionprops` bookkeeping, the `np.argmax` largest-area
selection and the row construction are the repository's own lines. -/
def analyze_front (segLib : BImg → LImg) (img : Img) (thresh : ℕ)
    (expName : String) (stackIdx : ℕ) : Except FrontError FrontRow :=
  let label_image := segLib (binarize img thresh)
  let regProp := gridRegions label_image
  match regProp with
  | [] => .error .noRegionFound
  | r0 :: rest =>
    let rs := r0 :: rest
    let largest := rs.getD (argmax (rs.map (fun r => r.area))) r0
    .ok { expName := expName
          frame := stackIdx
          area := largest.area
          minr := largest.minr
          minc := largest.minc
          maxr := largest.maxr
          maxc := largest.maxc
          heightPx := (largest.area : ℚ) / (img.length : ℚ) }

/-- Effectful map over a list in the `Except` monad, stopping at the first
error — the semantics of a Python loop whose body may raise. -/
def exceptMapM {ε α β : Type} (f : α → Except ε β) : List α → Except ε (List β)
  | [] => .ok []
  | a :: as =>
    match f a, exceptMapM f as with
    | .error e, _ => .error e
    | .ok _, .error e => .error e
    | .ok b, .ok bs => .ok (b :: bs)

/-- First cropping box stored under an experiment name:
`df_crop[df_crop['ExpName'] == name]['CroppingBox'].iloc[0]`. -/
def lookupBox (name : String) : List (String × CropBox) → Option CropBox
  | [] => none
  | (n, b) :: rest => if n = name then some b else lookupBox name rest

/-- `determine_threshold(stack)` from `analyze_front.py`: run the library's
`threshold_minimum` (parameter `thresholdMin`) on the temporal median-index
frame `stack[len(stack)//2]`; `none` models the `IndexError` on an empty
stack. -/
def determine_threshold (thresholdMin : Img → ℕ) (stack : List Img) : Option ℕ :=
  (stack.get? (stack.length / 2)).map thresholdMin

/-- `process_movie(file, df_crop)` from `analyze_front.py` (the decoding of
the file into `stack` and the name extraction are done by the caller here).
Looks up the cropping box, crops the stack, determines one threshold from the
cropped stack — and then, exactly as the source does, loops
`analyze_front(stack[i], min_thresh, name, i)` over the RAW stack. -/
def process_movie (segLib : BImg → LImg) (thresholdMin : Img → ℕ)
    (name : String) (stack : List Img) (df_crop : List (String × CropBox)) :
    Except FrontError (List FrontRow) :=
  match lookupBox name df_crop with
  | none => .error .missingCropBox
  | some box =>
    let stack_cropped := stack.map (fun img => crop img box)
    match determine_threshold thresholdMin stack_cropped with
    | none => .error .emptyStack
    | some min_thresh =>
      exceptMapM (fun i => analyze_front segLib (stack.getD i []) min_thresh name i)
        (List.range stack.length)

/-- Python list indexing `xs[i]` with negative-index semantics:
`xs[i]` is `xs[i + len(xs)]` for `-len(xs) ≤ i < 0`, and an `IndexError`
(`none`) outside `[-len(xs), len(xs))`. -/
def pyGet {α : Type} (xs : List α) (i : ℤ) : Option α :=
  if 0 ≤ i then xs.get? i.toNat
  else if 0 ≤ i + xs.length then xs.get? (i + xs.length).toNat
  else none

/-- `obtain_cropping_boxes(file_list)` from `analyze_front.py`: for each file
(already decoded to its stack here), pass `stack[len(stack) - 10]` to the
interactive selector (parameter `select_rectangle`) and record the box under
the experiment name. -/
def obtain_cropping_boxes (select_rectangle : Img → CropBox)
    (files : List (String × List Img)) :
    Except FrontError (List (String × CropBox)) :=
  exceptMapM (fun f =>
    match pyGet f.2 ((f.2.length : ℤ) - 10) with
    | some fr => .ok (f.1, select_rectangle fr)
    | none => .error .roiIndexOutOfRange) files

/-- First value stored under key `i` in an association list. -/
def lookupIdx {β : Type} (i : ℕ) : List (ℕ × β) → Option β
  | [] => none
  | (j, b) :: rest => if j = i then some b else lookupIdx i rest

/-- `joblib.Parallel`: `sched` is the order in which workers complete their
tasks; each completion delivers `(task index, result)`, and `Parallel`
returns the results re-ordered by task index (joblib preserves dispatch
order), so the output is indexed by `List.range n`. -/
def joblibParallel {β : Type} (g : ℕ → β) (n : ℕ) (sched : List ℕ) : List β :=
  (List.range n).filterMap (fun i => lookupIdx i (sched.map (fun j => (j, g j))))

/-- The processing branch of `analyze_front.py`'s `__main__`:
`df_list = Parallel(...)(delayed(process_movie)(file, df_crop) for file in file_list)`
followed by `pd.concat(df_list).reset_index(drop=True)`.  A worker's
exception propagates out of `Parallel`, aborting the run. -/
def front_df (segLib : BImg → LImg) (thresholdMin : Img → ℕ)
    (files : List (String × List Img)) (df_crop : List (String × CropBox))
    (sched : List ℕ) : Except FrontError (List FrontRow) :=
  match exceptMapM id
      (joblibParallel
        (fun i => process_movie segLib thresholdMin
          (files.getD i ("", [])).1 (files.getD i ("", [])).2 df_crop)
        files.length sched) with
  | .error e => .error e
  | .ok dfs => .ok dfs.flatten

/-- Sequential reference form of the same computation: per-file dataframes in
file-list order, concatenated. -/
def front_df_seq (segLib : BImg → LImg) (thresholdMin : Img → ℕ)
    (files : List (String × List Img)) (df_crop : List (String × CropBox)) :
    Except FrontError (List FrontRow) :=
  match exceptMapM (fun f => process_movie segLib thresholdMin f.1 f.2 df_crop) files with
  | .error e => .error e
  | .ok dfs => .ok dfs.flatten

/-- The caching logic of `analyze_front.py`'s `__main__` (lines 197-211):
if `ProcessedData.pkl` exists and `--reprocess` is not set, load it;
otherwise process the movies and write the pickle only after the whole run
produced `df`.  Returns `(df, wrotePickle, loadedFromDisk)`. -/
def front_main (segLib : BImg → LImg) (thresholdMin : Img → ℕ)
    (cacheExists bReprocess : Bool) (cached : List FrontRow)
    (files : List (String × List Img)) (df_crop : List (String × CropBox))
    (sched : List ℕ) : Except FrontError (List FrontRow × Bool × Bool) :=
  if cacheExists && !bReprocess then
    .ok (cached, false, true)
  else
    match front_df segLib thresholdMin files df_crop sched with
    | .error e => .error e
    | .ok df => .ok (df, true, false)

/-- One row of `analyze_bubbles`' dataframe:
`{'Frame', 'Label', 'Area', 'Eccentricity', 'Bbox Area'}`. -/
structure BubbleRecord where
  frame : ℕ
  label : ℕ
  area : ℚ
  eccentricity : ℚ
  bboxArea : ℚ
deriving DecidableEq

/-- `analyze_bubbles(img, scale, frame)` from `analyze_bubbles.py`.
`segLib` stands for the library chain of lines 45-60 (grayscale, Otsu
binarization, closing, distance transform, contrast stretch, local maxima,
watershed with `watershed_line=True`, final `ndi.label`), producing the final
labeled image `img_labeled`; `eccOf` stands for `regionprops`' moment-based
eccentricity.  The `regionprops` bookkeeping and the row construction
(`Area = i.area/scale**2`, `Bbox Area = i.bbox_area/scale**2`) are the
repository's own lines 62-66, with one row appended per region — no filter. -/
def analyze_bubbles (segLib : Img → LImg) (eccOf : LImg → ℕ → ℚ)
    (img : Img) (scale : ℚ) (frame : ℕ) : List BubbleRecord :=
  let img_labeled := segLib img
  (gridRegions img_labeled).map (fun r =>
    { frame := frame
      label := r.label
      area := (r.area : ℚ) / scale ^ 2
      eccentricity := eccOf img_labeled r.label
      bboxArea := (r.bboxArea : ℚ) / scale ^ 2 })

/-- Failures of the bubble pipeline's `main`. -/
inductive BubbleError where
  /-- `raise ValueError('Invalid file or directory.')`. -/
  | invalidPath
  /-- `raise Exception('No video file in directory.')` on an empty file list. -/
  | noInputFiles
  /-- `.iloc[0]` raises `IndexError` when no cropping box matches the name. -/
  | missingCropBox
deriving DecidableEq

/-- Observable outcome of one run of `analyze_bubbles.py`'s `main`:
the per-file dataframes handed to `plot_buble_area_hist`, in file order,
plus whether the run wrote or loaded the `ProcessedData` pickle. -/
structure BubbleRun where
  plots : List (List BubbleRecord)
  wrotePickle : Bool
  loadedFromDisk : Bool
deriving DecidableEq

/-- `main()` of `analyze_bubbles.py` (lines 100-152), from the point where
the file list is known.  `cacheExists` is whether the derived
`ProcessedData` pickle is present on disk and `bReprocess` the `-r` flag:
the source computes `savepath` and parses `-r` but never consults either
(no `read_pickle`/`to_pickle` call exists), so the run always reprocesses,
never loads, and never writes — each file is cropped, analyzed with
`frame = 0`, and its dataframe plotted immediately. -/
def bubbles_main (segLib : Img → LImg) (eccOf : LImg → ℕ → ℚ)
    (cacheExists bReprocess : Bool) (cached : List BubbleRecord) (scale : ℚ)
    (files : List (String × Img)) (df_crop : List (String × CropBox)) :
    Except BubbleError BubbleRun :=
  if files.length = 0 then .error .noInputFiles
  else
    match exceptMapM (fun f =>
        match lookupBox f.1 df_crop with
        | none => .error .missingCropBox
        | some box => .ok (analyze_bubbles segLib eccOf (crop f.2 box) scale 0)) files with
    | .error e => .error e
    | .ok plots => .ok { plots := plots, wrotePickle := false, loadedFromDisk := false }

/-! ### Shared helper lemmas -/

theorem mem_le_maxList (xs : List ℕ) (a : ℕ) (h : a ∈ xs) : a ≤ maxList xs := by
  induction xs with
  | nil => cases h
  | cons x t ih =>
    rcases List.mem_cons.mp h with rfl | h2
    · exact le_max_left a (maxList t)
    · exact le_trans (ih h2) (le_max_right x (maxList t))

theorem exceptMapM_ok_length {ε α β : Type} (f : α → Except ε β) (l : List α)
    (bs : List β) (h : exceptMapM f l = .ok bs) : bs.length = l.length := by
  induction l generalizing bs with
  | nil =>
    simp only [exceptMapM] at h
    cases h
    rfl
  | cons a t ih =>
    simp only [exceptMapM] at h
    cases hfa : f a with
    | error e => rw [hfa] at h; cases h
    | ok b =>
      rw [hfa] at h
      cases hmt : exceptMapM f t with
      | error e => rw [hmt] at h; cases h
      | ok bs' =>
        rw [hmt] at h
        cases h
        simp [ih bs' hmt]

theorem exceptMapM_ok_mem {ε α β : Type} (f : α → Except ε β) (l : List α)
    (bs : List β) (h : exceptMapM f l = .ok bs) :
    ∀ b ∈ bs, ∃ a ∈ l, f a = .ok b := by
  induction l generalizing bs with
  | nil =>
    simp only [exceptMapM] at h
    cases h
    intro b hb
    cases hb
  | cons a t ih =>
    simp only [exceptMapM] at h
    cases hfa : f a with
    | error e => rw [hfa] at h; cases h
    | ok b0 =>
      rw [hfa] at h
      cases hmt : exceptMapM f t with
      | error e => rw [hmt] at h; cases h
      | ok bs' =>
        rw [hmt] at h
        cases h
        intro b hb
        rcases List.mem_cons.mp hb with rfl | hb2
        · exact ⟨a, List.mem_cons_self a t, hfa⟩
        · obtain ⟨a', ha', hfa'⟩ := ih bs' hmt b hb2
          exact ⟨a', List.mem_cons_of_mem a ha', hfa'⟩

theorem exceptMapM_map {ε α β γ : Type} (f : β → Except ε γ) (g : α → β)
    (l : List α) : exceptMapM f (l.map g) = exceptMapM (fun a => f (g a)) l := by
  induction l with
  | nil => rfl
  | cons a t ih => simp only [List.map_cons, exceptMapM, ih]

theorem lookupIdx_map {β : Type} (g : ℕ → β) (i : ℕ) (sched : List ℕ) :
    lookupIdx i (sched.map (fun j => (j, g j))) =
      if i ∈ sched then some (g i) else none := by
  induction sched with
  | nil => rfl
  | cons j rest ih =>
    rw [List.map_cons]
    by_cases hj : j = i
    · subst hj
      simp [lookupIdx]
    · show (if j = i then some (g j) else lookupIdx i (rest.map (fun j => (j, g j)))) = _
      rw [if_neg hj, ih]
      by_cases hi : i ∈ rest
      · rw [if_pos hi, if_pos (List.mem_cons_of_mem _ hi)]
      · rw [if_neg hi, if_neg (by
          intro hmem
          rcases List.mem_cons.mp hmem with h1 | h2
          · exact hj h1.symm
          · exact hi h2)]

theorem filterMap_congr_some {α β : Type} (l : List α) (p : α → Option β)
    (g : α → β) (h : ∀ a ∈ l, p a = some (g a)) : l.filterMap p = l.map g := by
  induction l with
  | nil => rfl
  | cons a t ih =>
    rw [List.filterMap_cons_some (h a (List.mem_cons_self a t)), List.map_cons,
      ih (fun x hx => h x (List.mem_cons_of_mem a hx))]

theorem map_range_getD {α β : Type} (xs : List α) (d : α) (f : α → β) :
    (List.range xs.length).map (fun i => f (xs.getD i d)) = xs.map f := by
  induction xs with
  | nil => rfl
  | cons x t ih =>
    rw [List.length_cons, List.range_succ_eq_map, List.map_cons, List.map_map]
    have hh : ((fun i => f ((x :: t).getD i d)) ∘ Nat.succ) = (fun i => f (t.getD i d)) := rfl
    rw [hh, ih]
    rfl

theorem joblibParallel_eq_map {β : Type} (g : ℕ → β) (n : ℕ) (sched : List ℕ)
    (h : ∀ i < n, i ∈ sched) :
    joblibParallel g n sched = (List.range n).map g := by
  unfold joblibParallel
  apply filterMap_congr_some
  intro i hi
  rw [lookupIdx_map, if_pos (h i (List.mem_range.mp hi))]

/-! ### C2 — Cropper bounds behaviour -/

/-- Claim C2 is false on the code: for the 2×2 frame `[[1,2],[3,4]]` and the
box `(0,0,5,5)`, whose `maxRow = maxCol = 5` exceed both frame bounds, the
code's Cropper (numpy slicing, `crop`) returns a sub-grid — the whole frame —
instead of failing, while the spec-level contract `cropSpec` would have
raised `InvalidRegionError`. -/
theorem C2_counterexample :
    crop [[1, 2], [3, 4]] ⟨0, 0, 5, 5⟩ = [[1, 2], [3, 4]] ∧
    ([[1, 2], [3, 4]] : Img).length < 5 ∧ imgWidth [[1, 2], [3, 4]] < 5 ∧
    cropSpec [[1, 2], [3, 4]] ⟨0, 0, 5, 5⟩ = .error .invalidRegion :=
  ⟨rfl, by decide, by decide, rfl⟩

/-- Claim C2 amended: the Cropper never fails.  On a rectangular `h × w`
frame it returns the sub-grid of the box clamped to the frame bounds (Python
slice semantics): the result has `min maxRow h - min minRow h` rows, each of
width `min maxCol w - min minCol w`; and exactly when the box lies inside the
frame the bounds-checked contract `cropSpec` agrees with it. -/
theorem C2_amended (img : Img) (b : CropBox) (h w : ℕ) (hr : isRect img h w) :
    (crop img b).length = min b.maxRow h - min b.minRow h ∧
    (∀ row ∈ crop img b, row.length = min b.maxCol w - min b.minCol w) ∧
    (b.maxRow ≤ img.length → b.maxCol ≤ imgWidth img →
      cropSpec img b = .ok (crop img b)) := by
  obtain ⟨hh, hw⟩ := hr
  refine ⟨?_, ?_, ?_⟩
  · rw [crop, List.length_map, List.length_take, List.length_drop, hh]
    omega
  · intro row hrow
    rw [crop, List.mem_map] at hrow
    obtain ⟨orig, horig, hroweq⟩ := hrow
    have horig2 : orig ∈ img :=
      List.mem_of_mem_drop (List.mem_of_mem_take horig)
    have hlen : orig.length = w := hw orig horig2
    rw [← hroweq, List.length_take, List.length_drop, hlen]
    omega
  · intro h1 h2
    rw [cropSpec, if_pos ⟨h1, h2⟩]

/-- Witness for C2_amended at the frame `[[1,2],[3,4]]` and box `(0,1,2,2)`. -/
theorem C2_amended_witness :
    isRect [[1, 2], [3, 4]] 2 2 ∧
    (crop [[1, 2], [3, 4]] ⟨0, 1, 2, 2⟩).length = min 2 2 - min 0 2 ∧
    cropSpec [[1, 2], [3, 4]] ⟨0, 1, 2, 2⟩ = .ok (crop [[1, 2], [3, 4]] ⟨0, 1, 2, 2⟩) :=
  ⟨by decide, (C2_amended [[1, 2], [3, 4]] ⟨0, 1, 2, 2⟩ 2 2 (by decide)).1,
    (C2_amended [[1, 2], [3, 4]] ⟨0, 1, 2, 2⟩ 2 2 (by decide)).2.2 (by decide) (by decide)⟩

/-! ### C4 / C5 — largest-region Segmenter -/

theorem analyze_front_eq_of_regions (segLib : BImg → LImg) (img : Img)
    (thresh : ℕ) (expName : String) (stackIdx : ℕ) (r0 : GridRegion)
    (rest : List GridRegion)
    (hrs : gridRegions (segLib (binarize img thresh)) = r0 :: rest) :
    analyze_front segLib img thresh expName stackIdx =
      .ok { expName := expName
            frame := stackIdx
            area := ((r0 :: rest).getD (argmax ((r0 :: rest).map (fun s => s.area))) r0).area
            minr := ((r0 :: rest).getD (argmax ((r0 :: rest).map (fun s => s.area))) r0).minr
            minc := ((r0 :: rest).getD (argmax ((r0 :: rest).map (fun s => s.area))) r0).minc
            maxr := ((r0 :: rest).getD (argmax ((r0 :: rest).map (fun s => s.area))) r0).maxr
            maxc := ((r0 :: rest).getD (argmax ((r0 :: rest).map (fun s => s.area))) r0).maxc
            heightPx := (((r0 :: rest).getD (argmax ((r0 :: rest).map (fun s => s.area))) r0).area : ℚ) /
              (img.length : ℚ) } := by
  simp only [analyze_front]
  rw [hrs]

/-- Claim C4: whenever the closed, labeled mask has at least one connected
component, `analyze_front` succeeds and returns the area and bounding box of
the component at `np.argmax` of the area list — a component of maximum area,
ties broken by the first occurrence of the maximum. -/
theorem C4_largest_region (segLib : BImg → LImg) (img : Img) (thresh : ℕ)
    (expName : String) (stackIdx : ℕ)
    (h : gridRegions (segLib (binarize img thresh)) ≠ []) :
    ∃ r, (gridRegions (segLib (binarize img thresh))).get?
        (argmax ((gridRegions (segLib (binarize img thresh))).map (fun s => s.area))) = some r ∧
      analyze_front segLib img thresh expName stackIdx =
        .ok { expName := expName, frame := stackIdx, area := r.area, minr := r.minr,
              minc := r.minc, maxr := r.maxr, maxc := r.maxc,
              heightPx := (r.area : ℚ) / (img.length : ℚ) } ∧
      (∀ j s, (gridRegions (segLib (binarize img thresh))).get? j = some s →
        s.area ≤ r.area) ∧
      (∀ j s, j < argmax ((gridRegions (segLib (binarize img thresh))).map (fun s => s.area)) →
        (gridRegions (segLib (binarize img thresh))).get? j = some s → s.area < r.area) := by
  cases hrs : gridRegions (segLib (binarize img thresh)) with
  | nil => exact absurd hrs h
  | cons r0 rest =>
    have heq := analyze_front_eq_of_regions segLib img thresh expName stackIdx r0 rest hrs
    have hanene : (r0 :: rest).map (fun s : GridRegion => s.area) ≠ [] := by
      simp
    have hlen : argmax ((r0 :: rest).map (fun s : GridRegion => s.area)) < (r0 :: rest).length := by
      have := argmax_lt_length _ hanene
      simpa [List.length_map] using this
    refine ⟨(r0 :: rest).get ⟨argmax ((r0 :: rest).map (fun s => s.area)), hlen⟩,
      List.get?_eq_get hlen, ?_, ?_, ?_⟩
    · rw [heq]
      have hgd : (r0 :: rest).getD (argmax ((r0 :: rest).map (fun s => s.area))) r0 =
          (r0 :: rest).get ⟨argmax ((r0 :: rest).map (fun s => s.area)), hlen⟩ := by
        rw [List.getD_eq_getD_get?, List.get?_eq_get hlen, Option.getD_some]
      rw [hgd]
    · intro j s hjs
      have hsmem : s.area ∈ (r0 :: rest).map (fun s : GridRegion => s.area) := by
        apply List.get?_mem (n := j)
        rw [List.get?_map, hjs]
        rfl
      have hle := mem_le_maxList _ _ hsmem
      have hmax : ((r0 :: rest).map (fun s : GridRegion => s.area)).getD
          (argmax ((r0 :: rest).map (fun s : GridRegion => s.area))) 0 =
          maxList ((r0 :: rest).map (fun s : GridRegion => s.area)) := getD_argmax _ hanene
      rw [List.getD_eq_getD_get?, List.get?_map, List.get?_eq_get hlen] at hmax
      simp only [Option.map_some', Option.getD_some] at hmax
      rw [← hmax] at hle
      exact hle
    · intro j s hj hjs
      have hlt := getD_lt_argmax ((r0 :: rest).map (fun s : GridRegion => s.area)) j hj
      have hjget : ((r0 :: rest).map (fun s : GridRegion => s.area)).getD j 0 = s.area := by
        rw [List.getD_eq_getD_get?, List.get?_map, hjs]
        rfl
      have hmax : ((r0 :: rest).map (fun s : GridRegion => s.area)).getD
          (argmax ((r0 :: rest).map (fun s : GridRegion => s.area))) 0 =
          maxList ((r0 :: rest).map (fun s : GridRegion => s.area)) := getD_argmax _ hanene
      rw [List.getD_eq_getD_get?, List.get?_map, List.get?_eq_get hlen] at hmax
      simp only [Option.map_some', Option.getD_some] at hmax
      rw [hjget, ← hmax] at hlt
      exact hlt

/-- Test mask for C4: label 1 is a 5×10 square (area 50, rows 0-4, cols 0-9),
label 2 a 10×20 square (area 200, rows 6-15, cols 0-19), per the spec's
two-squares scenario. -/
def exMask2 : LImg :=
  (List.range 16).map (fun r =>
    (List.range 20).map (fun c =>
      if r ≤ 4 ∧ c ≤ 9 then 1 else if 6 ≤ r ∧ r ≤ 15 then 2 else 0))

/-- Library stand-in whose closing+labeling yields `exMask2`. -/
def exSegLib2 : BImg → LImg := fun _ => exMask2

/-- One-pixel frame used where the frame content is irrelevant. -/
def exImg0 : Img := [[0]]

set_option maxRecDepth 100000 in
/-- Witness for C4: on the two-squares mask the selected region has
area 200 and bounding box (6, 0, 16, 20) — the 200-area square exactly. -/
theorem C4_witness :
    gridRegions (exSegLib2 (binarize exImg0 0)) ≠ [] ∧
    analyze_front exSegLib2 exImg0 0 "exp" 3 =
      .ok { expName := "exp", frame := 3, area := 200, minr := 6, minc := 0,
            maxr := 16, maxc := 20, heightPx := ((200 : ℕ) : ℚ) / ((1 : ℕ) : ℚ) } := by
  refine ⟨by decide, ?_⟩
  obtain ⟨r, hr, heq, _, _⟩ := C4_largest_region exSegLib2 exImg0 0 "exp" 3 (by decide)
  have h2 : (gridRegions (exSegLib2 (binarize exImg0 0))).get?
      (argmax ((gridRegions (exSegLib2 (binarize exImg0 0))).map (fun s => s.area))) =
      some ⟨2, 200, 6, 0, 16, 20⟩ := by decide
  have h3 : r = ⟨2, 200, 6, 0, 16, 20⟩ := Option.some.inj (hr.symm.trans h2)
  rw [heq, h3]
  rfl

/-- Claim C5: zero connected components after labeling make `analyze_front`
fail (`np.argmax` on an empty sequence; spec: `NoRegionFoundError`) instead
of returning a record. -/
theorem C5_no_region_error (segLib : BImg → LImg) (img : Img) (thresh : ℕ)
    (expName : String) (stackIdx : ℕ)
    (h : gridRegions (segLib (binarize img thresh)) = []) :
    analyze_front segLib img thresh expName stackIdx = .error .noRegionFound := by
  simp only [analyze_front]
  rw [h]

/-- Library stand-in for a mask whose closing+labeling is all background. -/
def exSegLibZero : BImg → LImg := fun g => g.map (fun row => row.map (fun _ => 0))

/-- All-zero 3×3 frame. -/
def exImgZero : Img := [[0, 0, 0], [0, 0, 0], [0, 0, 0]]

/-- Witness for C5 at the all-zero mask. -/
theorem C5_witness :
    gridRegions (exSegLibZero (binarize exImgZero 5)) = [] ∧
    analyze_front exSegLibZero exImgZero 5 "blank" 0 = .error .noRegionFound :=
  ⟨by decide, C5_no_region_error exSegLibZero exImgZero 5 "blank" 0 (by decide)⟩

/-! ### C3 — one record per region, areas divided by scale² -/

/-- Claim C3: `analyze_bubbles` produces exactly one `MeasurementRecord` per
final labeled region (no region filtered out), and the record at each
position carries that region's pixel area divided by `scale^2` and its
bounding-box pixel area divided by `scale^2`. -/
theorem C3_record_per_region (segLib : Img → LImg) (eccOf : LImg → ℕ → ℚ)
    (img : Img) (scale : ℚ) (frame : ℕ) (hs : 0 < scale) :
    (analyze_bubbles segLib eccOf img scale frame).length =
      (gridRegions (segLib img)).length ∧
    ∀ i r, (gridRegions (segLib img)).get? i = some r →
      (analyze_bubbles segLib eccOf img scale frame).get? i =
        some { frame := frame, label := r.label, area := (r.area : ℚ) / scale ^ 2,
               eccentricity := eccOf (segLib img) r.label,
               bboxArea := (r.bboxArea : ℚ) / scale ^ 2 } := by
  constructor
  · simp [analyze_bubbles]
  · intro i r hr
    simp only [analyze_bubbles, List.get?_map, hr, Option.map_some']

/-- Labeled test image for C3: three regions, label 1 of area 4 (2×2),
label 2 of area 3 (3×1), label 3 of area 1. -/
def exMask3 : LImg := [[1, 1, 0, 2], [1, 1, 0, 2], [0, 0, 0, 2], [3, 0, 0, 0]]

/-- Library stand-in whose watershed chain yields `exMask3`. -/
def exSegLib3 : Img → LImg := fun _ => exMask3

/-- Eccentricity stand-in (`regionprops` moments): constant 0. -/
def exEccZero : LImg → ℕ → ℚ := fun _ _ => 0

/-- Witness for C3: spec scenario with scale 2 px/mm — three regions yield
exactly three records, each with `Area = pixelArea / 4`. -/
theorem C3_witness :
    (0 : ℚ) < 2 ∧
    (analyze_bubbles exSegLib3 exEccZero exImg0 2 7).length =
      (gridRegions (exSegLib3 exImg0)).length ∧
    (gridRegions (exSegLib3 exImg0)).length = 3 ∧
    (analyze_bubbles exSegLib3 exEccZero exImg0 2 7).map
      (fun r => (r.frame, r.label)) = [(7, 1), (7, 2), (7, 3)] ∧
    (analyze_bubbles exSegLib3 exEccZero exImg0 2 7).map
      (fun r => r.area) =
      [((4 : ℕ) : ℚ) / (2 : ℚ) ^ 2, ((3 : ℕ) : ℚ) / (2 : ℚ) ^ 2, ((1 : ℕ) : ℚ) / (2 : ℚ) ^ 2] ∧
    ((4 : ℕ) : ℚ) / (2 : ℚ) ^ 2 = 1 :=
  ⟨by norm_num,
    (C3_record_per_region exSegLib3 exEccZero exImg0 2 7 (by norm_num)).1,
    by decide, by decide, rfl, by norm_num⟩

/-! ### C9 — bubble records always carry frame 0 -/

theorem analyze_bubbles_frame (segLib : Img → LImg) (eccOf : LImg → ℕ → ℚ)
    (img : Img) (scale : ℚ) (fr : ℕ) (r : BubbleRecord)
    (h : r ∈ analyze_bubbles segLib eccOf img scale fr) : r.frame = fr := by
  simp only [analyze_bubbles, List.mem_map] at h
  obtain ⟨s, _, rfl⟩ := h
  rfl

theorem bubbles_main_ok_destruct (segLib : Img → LImg) (eccOf : LImg → ℕ → ℚ)
    (cacheExists bReprocess : Bool) (cached : List BubbleRecord) (scale : ℚ)
    (files : List (String × Img)) (df_crop : List (String × CropBox))
    (run : BubbleRun)
    (h : bubbles_main segLib eccOf cacheExists bReprocess cached scale files df_crop = .ok run) :
    run.wrotePickle = false ∧ run.loadedFromDisk = false ∧
    exceptMapM (fun f =>
        match lookupBox f.1 df_crop with
        | none => .error BubbleError.missingCropBox
        | some box => .ok (analyze_bubbles segLib eccOf (crop f.2 box) scale 0)) files =
      .ok run.plots := by
  unfold bubbles_main at h
  by_cases hf : files.length = 0
  · rw [if_pos hf] at h
    cases h
  · rw [if_neg hf] at h
    cases hm : exceptMapM (fun f =>
        match lookupBox f.1 df_crop with
        | none => .error BubbleError.missingCropBox
        | some box => .ok (analyze_bubbles segLib eccOf (crop f.2 box) scale 0)) files with
    | error e => rw [hm] at h; cases h
    | ok plots =>
      rw [hm] at h
      cases h
      exact ⟨rfl, rfl, rfl⟩

/-- Claim C9: `main` invokes `analyze_bubbles(img_cropped, scale, 0)` for
every file, so every record of every per-file dataframe of a successful run
has `Frame = 0`. -/
theorem C9_frame_always_zero (segLib : Img → LImg) (eccOf : LImg → ℕ → ℚ)
    (cacheExists bReprocess : Bool) (cached : List BubbleRecord) (scale : ℚ)
    (files : List (String × Img)) (df_crop : List (String × CropBox))
    (run : BubbleRun)
    (h : bubbles_main segLib eccOf cacheExists bReprocess cached scale files df_crop = .ok run) :
    ∀ df ∈ run.plots, ∀ r ∈ df, r.frame = 0 := by
  obtain ⟨-, -, hm⟩ := bubbles_main_ok_destruct segLib eccOf cacheExists bReprocess
    cached scale files df_crop run h
  intro df hdf r hrdf
  obtain ⟨f, -, hfa⟩ := exceptMapM_ok_mem _ _ _ hm df hdf
  cases hb : lookupBox f.1 df_crop with
  | none => rw [hb] at hfa; cases hfa
  | some box =>
    rw [hb] at hfa
    cases hfa
    exact analyze_bubbles_frame segLib eccOf (crop f.2 box) scale 0 r hrdf

/-- Full-frame box for 1×1 or larger test frames. -/
def exBoxAll : CropBox := ⟨0, 0, 4, 4⟩

/-- Witness for C9 at a one-file run. -/
theorem C9_witness :
    bubbles_main exSegLib3 exEccZero true false [] 1 [("a", exImg0)] [("a", exBoxAll)] =
      .ok { plots := [analyze_bubbles exSegLib3 exEccZero (crop exImg0 exBoxAll) 1 0],
            wrotePickle := false, loadedFromDisk := false } ∧
    ∀ df ∈ ({ plots := [analyze_bubbles exSegLib3 exEccZero (crop exImg0 exBoxAll) 1 0],
              wrotePickle := false, loadedFromDisk := false } : BubbleRun).plots,
      ∀ r ∈ df, r.frame = 0 :=
  ⟨rfl, C9_frame_always_zero exSegLib3 exEccZero true false [] 1 [("a", exImg0)]
    [("a", exBoxAll)] _ rfl⟩

/-! ### C6 — one threshold per clip, from the cropped stack's median frame -/

theorem determine_threshold_eq (t : Img → ℕ) (l : List Img) (h : l ≠ []) :
    determine_threshold t l = some (t (l.getD (l.length / 2) [])) := by
  have hpos : 0 < l.length := List.length_pos.mpr h
  have hlt : l.length / 2 < l.length := Nat.div_lt_self hpos one_lt_two
  unfold determine_threshold
  rw [List.get?_eq_get hlt, List.getD_eq_getD_get?, List.get?_eq_get hlt, Option.getD_some]
  rfl

/-- Claim C6: `process_movie` computes exactly one threshold for the clip —
`threshold_minimum` applied to the temporal median-index frame
(index `len(stack) // 2`) of the cropped stack — and hands that same value
to `analyze_front` for every frame of the clip. -/
theorem C6_single_threshold (segLib : BImg → LImg) (thresholdMin : Img → ℕ)
    (name : String) (stack : List Img) (df_crop : List (String × CropBox))
    (box : CropBox) (hbox : lookupBox name df_crop = some box)
    (hne : stack ≠ []) :
    determine_threshold thresholdMin (stack.map (fun img => crop img box)) =
      some (thresholdMin ((stack.map (fun img => crop img box)).getD (stack.length / 2) [])) ∧
    process_movie segLib thresholdMin name stack df_crop =
      exceptMapM (fun i => analyze_front segLib (stack.getD i [])
          (thresholdMin ((stack.map (fun img => crop img box)).getD (stack.length / 2) []))
          name i)
        (List.range stack.length) := by
  have hmapne : stack.map (fun img => crop img box) ≠ [] := by
    simp [hne]
  have hdet := determine_threshold_eq thresholdMin (stack.map (fun img => crop img box)) hmapne
  rw [List.length_map] at hdet
  refine ⟨hdet, ?_⟩
  simp only [process_movie, hbox, hdet]

/-- Three-frame test stack. -/
def exStack3 : List Img := [[[1, 2], [3, 4]], [[5, 6], [7, 8]], [[9, 1], [2, 3]]]

/-- Top-row ROI for the 2×2 test frames. -/
def exBoxTop : CropBox := ⟨0, 0, 1, 2⟩

/-- Cropping-box table for the test clip. -/
def exDfCrop : List (String × CropBox) := [("e", exBoxTop)]

/-- Library stand-in for `threshold_minimum`: the largest intensity. -/
def exThreshMax : Img → ℕ := fun img => maxOf img.flatten

/-- Library stand-in for closing+labeling: every foreground pixel gets
label 1 (adequate for frames whose foreground is one block). -/
def exSegLibOnes : BImg → LImg :=
  fun g => g.map (fun row => row.map (fun b => if b then 1 else 0))

/-- Witness for C6 on a concrete 3-frame clip: the single threshold is
`threshold_minimum` of the cropped median frame (index 1). -/
theorem C6_witness :
    lookupBox "e" exDfCrop = some exBoxTop ∧ exStack3 ≠ [] ∧
    determine_threshold exThreshMax (exStack3.map (fun img => crop img exBoxTop)) =
      some (exThreshMax ((exStack3.map (fun img => crop img exBoxTop)).getD
        (exStack3.length / 2) [])) :=
  ⟨by decide, by decide,
    (C6_single_threshold exSegLibOnes exThreshMax "e" exStack3 exDfCrop exBoxTop
      (by decide) (by decide)).1⟩

/-! ### C1 — the frames that are segmented are the raw ones, not the crop -/

/-- Uniform 3×3 frame of intensity 10. -/
def exImg3 : Img := [[10, 10, 10], [10, 10, 10], [10, 10, 10]]

/-- Top-left 2×2 ROI. -/
def exBoxTL : CropBox := ⟨0, 0, 2, 2⟩

/-- One-frame clip. -/
def exStack1 : List Img := [exImg3]

/-- Cropping-box table for the one-frame clip. -/
def exDfCrop1 : List (String × CropBox) := [("mov", exBoxTL)]

/-- Library stand-in for `threshold_minimum`: constant 5. -/
def exThreshConst5 : Img → ℕ := fun _ => 5

/-- Claim C1 fails on the code: with a 3×3 frame of intensity 10, ROI
`(0,0,2,2)` and threshold 5, `process_movie` records area 9 — the full raw
frame — whereas segmenting the cropped frame records area 4.  The loop at
line 108 of `analyze_front.py` passes `stack[i]`, not `stack_cropped[i]`,
to `analyze_front`. -/
theorem C1_code_bug_eval :
    process_movie exSegLibOnes exThreshConst5 "mov" exStack1 exDfCrop1 =
      .ok [{ expName := "mov", frame := 0, area := 9, minr := 0, minc := 0,
             maxr := 3, maxc := 3, heightPx := ((9 : ℕ) : ℚ) / ((3 : ℕ) : ℚ) }] ∧
    analyze_front exSegLibOnes (crop exImg3 exBoxTL) 5 "mov" 0 =
      .ok { expName := "mov", frame := 0, area := 4, minr := 0, minc := 0,
            maxr := 2, maxc := 2, heightPx := ((4 : ℕ) : ℚ) / ((2 : ℕ) : ℚ) } ∧
    (9 : ℕ) ≠ 4 :=
  ⟨rfl, rfl, by decide⟩

/-! ### C7 — concatenation order and completion-order invariance -/

theorem exceptMapM_range_getD {ε α β : Type} (xs : List α) (d : α)
    (F : α → Except ε β) :
    exceptMapM (fun i => F (xs.getD i d)) (List.range xs.length) =
      exceptMapM F xs := by
  induction xs with
  | nil => rfl
  | cons x t ih =>
    rw [List.length_cons, List.range_succ_eq_map]
    simp only [exceptMapM]
    rw [exceptMapM_map]
    have hg : (fun a => (fun i => F ((x :: t).getD i d)) (Nat.succ a)) =
        (fun i => F (t.getD i d)) := rfl
    rw [hg, ih]
    rfl

/-- The bubble pipeline never builds one concatenated ResultSet: with two
input files, each segmenting into one region, `main` hands the plotter two
separate one-file dataframes, not their concatenation.  Claim C7's "each
pipeline concatenates the per-file sequences into one ResultSet" is false
for the bubble pipeline. -/
theorem C7_counterexample :
    bubbles_main exSegLib3 exEccZero false false [] 1
      [("a", exImg0), ("b", exImg0)] [("a", exBoxAll), ("b", exBoxAll)] =
      .ok { plots := [analyze_bubbles exSegLib3 exEccZero (crop exImg0 exBoxAll) 1 0,
                      analyze_bubbles exSegLib3 exEccZero (crop exImg0 exBoxAll) 1 0],
            wrotePickle := false, loadedFromDisk := false } ∧
    ([analyze_bubbles exSegLib3 exEccZero (crop exImg0 exBoxAll) 1 0,
      analyze_bubbles exSegLib3 exEccZero (crop exImg0 exBoxAll) 1 0] :
        List (List BubbleRecord)) ≠
      [analyze_bubbles exSegLib3 exEccZero (crop exImg0 exBoxAll) 1 0 ++
        analyze_bubbles exSegLib3 exEccZero (crop exImg0 exBoxAll) 1 0] := by
  refine ⟨rfl, ?_⟩
  intro h
  have := congrArg List.length h
  simp at this

/-- Claim C7 amended: the front pipeline's ResultSet equals the sequential
file-order concatenation of per-file dataframes, for every completion order
`sched` that covers all file indices — so it is invariant to the order in
which the parallel per-file workers complete; the bubble pipeline instead
produces one separate per-file record list per input file (never
concatenated). -/
theorem C7_amended (segLib : BImg → LImg) (thresholdMin : Img → ℕ)
    (files : List (String × List Img)) (df_crop : List (String × CropBox))
    (sched : List ℕ) (segLibB : Img → LImg) (eccOf : LImg → ℕ → ℚ)
    (cacheExists bReprocess : Bool) (cachedB : List BubbleRecord) (scale : ℚ)
    (bfiles : List (String × Img)) (bdf_crop : List (String × CropBox))
    (hsched : ∀ i < files.length, i ∈ sched) :
    front_df segLib thresholdMin files df_crop sched =
      front_df_seq segLib thresholdMin files df_crop ∧
    (∀ run, bubbles_main segLibB eccOf cacheExists bReprocess cachedB scale
        bfiles bdf_crop = .ok run → run.plots.length = bfiles.length) := by
  constructor
  · have hs : exceptMapM id
        (joblibParallel (fun i => process_movie segLib thresholdMin
          (files.getD i ("", [])).1 (files.getD i ("", [])).2 df_crop)
          files.length sched) =
        exceptMapM (fun f : String × List Img =>
          process_movie segLib thresholdMin f.1 f.2 df_crop) files := by
      rw [joblibParallel_eq_map _ _ _ hsched, exceptMapM_map]
      exact exceptMapM_range_getD files ("", [])
        (fun f => process_movie segLib thresholdMin f.1 f.2 df_crop)
    unfold front_df front_df_seq
    rw [hs]
  · intro run h
    obtain ⟨-, -, hm⟩ := bubbles_main_ok_destruct segLibB eccOf cacheExists
      bReprocess cachedB scale bfiles bdf_crop run h
    exact exceptMapM_ok_length _ _ _ hm

/-- Two-clip front test set. -/
def exFilesF2 : List (String × List Img) := [("e", exStack3), ("f", exStack1)]

/-- Cropping-box table for the two-clip test set. -/
def exDfCropF2 : List (String × CropBox) := [("e", exBoxTop), ("f", exBoxTL)]

/-- Witness for C7 with the two workers completing in reverse order. -/
theorem C7_witness :
    (∀ i < exFilesF2.length, i ∈ ([1, 0] : List ℕ)) ∧
    front_df exSegLibOnes exThreshConst5 exFilesF2 exDfCropF2 [1, 0] =
      front_df_seq exSegLibOnes exThreshConst5 exFilesF2 exDfCropF2 :=
  ⟨by decide,
    (C7_amended exSegLibOnes exThreshConst5 exFilesF2 exDfCropF2 [1, 0]
      exSegLib3 exEccZero false false [] 1 [] [] (by decide)).1⟩

/-! ### C8 — caching and persistence behaviour -/

/-- The bubble pipeline ignores the cache entirely: with the pickle present
(`cacheExists = true`) and `--reprocess` not set, a successful run still
reprocesses, loads nothing and writes nothing — claim C8's "reloads the
cached ResultSet exactly when the blob exists and the reprocess flag is not
set" is false for the bubble pipeline. -/
theorem C8_counterexample :
    bubbles_main exSegLib3 exEccZero true false
      [{ frame := 5, label := 9, area := 9, eccentricity := 9, bboxArea := 9 }] 1
      [("a", exImg0)] [("a", exBoxAll)] =
      .ok { plots := [analyze_bubbles exSegLib3 exEccZero (crop exImg0 exBoxAll) 1 0],
            wrotePickle := false, loadedFromDisk := false } ∧
    (false : Bool) ≠ true := by
  exact ⟨rfl, by decide⟩

/-- Claim C8 amended: the front pipeline reloads the cached ResultSet
exactly when the pickle exists and the reprocess flag is unset, otherwise it
reprocesses and writes only after the whole run succeeded (a failing run
yields the error and writes nothing); the bubble pipeline computes the cache
path but never loads nor writes it. -/
theorem C8_amended (segLib : BImg → LImg) (thresholdMin : Img → ℕ)
    (cacheExists bReprocess : Bool) (cached : List FrontRow)
    (files : List (String × List Img)) (df_crop : List (String × CropBox))
    (sched : List ℕ) (segLibB : Img → LImg) (eccOf : LImg → ℕ → ℚ)
    (cacheExistsB bReprocessB : Bool) (cachedB : List BubbleRecord) (scale : ℚ)
    (bfiles : List (String × Img)) (bdf_crop : List (String × CropBox)) :
    (cacheExists = true → bReprocess = false →
      front_main segLib thresholdMin cacheExists bReprocess cached files df_crop sched =
        .ok (cached, false, true)) ∧
    (cacheExists = false ∨ bReprocess = true →
      (∀ e, front_df segLib thresholdMin files df_crop sched = .error e →
        front_main segLib thresholdMin cacheExists bReprocess cached files df_crop sched =
          .error e) ∧
      (∀ df, front_df segLib thresholdMin files df_crop sched = .ok df →
        front_main segLib thresholdMin cacheExists bReprocess cached files df_crop sched =
          .ok (df, true, false))) ∧
    (∀ run, bubbles_main segLibB eccOf cacheExistsB bReprocessB cachedB scale
        bfiles bdf_crop = .ok run →
      run.wrotePickle = false ∧ run.loadedFromDisk = false) := by
  refine ⟨?_, ?_, ?_⟩
  · intro h1 h2
    subst h1
    subst h2
    unfold front_main
    rfl
  · intro hcase
    have hcond : (cacheExists && !bReprocess) = false := by
      rcases hcase with h | h <;> subst h <;> simp
    constructor
    · intro e he
      unfold front_main
      rw [hcond]
      simp only [Bool.false_eq_true, if_false, he]
    · intro df hdf
      unfold front_main
      rw [hcond]
      simp only [Bool.false_eq_true, if_false, hdf]
  · intro run h
    obtain ⟨h1, h2, -⟩ := bubbles_main_ok_destruct segLibB eccOf cacheExistsB
      bReprocessB cachedB scale bfiles bdf_crop run h
    exact ⟨h1, h2⟩

/-- Cached rows used by the C8 witness. -/
def exCachedF : List FrontRow :=
  [{ expName := "old", frame := 0, area := 1, minr := 0, minc := 0, maxr := 1,
     maxc := 1, heightPx := 1 }]

/-- Witness for C8: with the pickle present and no reprocess flag, the front
pipeline returns the cached rows, writing nothing. -/
theorem C8_witness :
    front_main exSegLibOnes exThreshConst5 true false exCachedF exFilesF2
      exDfCropF2 [0, 1] = .ok (exCachedF, false, true) :=
  (C8_amended exSegLibOnes exThreshConst5 true false exCachedF exFilesF2
    exDfCropF2 [0, 1] exSegLib3 exEccZero false false [] 1 [] []).1 rfl rfl

/-! ### C10 — ROI-selection frame index `stack[len(stack) - 10]` -/

/-- Nine-frame stack with distinguishable frames. -/
def exStack9 : List Img := (List.range 9).map (fun k => [[k]])

/-- Claim C10 is wrong about which frame is silently selected: for a 9-frame
stack, `stack[len(stack) - 10]` is `stack[-1]` — the LAST frame of the
stack, not a frame near the start (its index 8 is not in the first half of
the stack). -/
theorem C10_counterexample :
    exStack9.length = 9 ∧
    pyGet exStack9 ((exStack9.length : ℤ) - 10) = some [[8]] ∧
    exStack9.getD (exStack9.length - 1) [] = [[8]] ∧
    ¬ (2 * 8 < exStack9.length) :=
  ⟨by decide, by decide, by decide, by decide⟩

/-- Claim C10 amended: `obtain_cropping_boxes` selects `stack[len - 10]`
without validating the stack length; for fewer than 5 frames the index is
out of range both ways and the function fails with the uncaught indexing
error, and for 5 to 9 frames negative indexing silently selects the frame
at index `2·len − 10` counted from the start — which ranges from the first
frame (len = 5) to the last frame (len = 9), not necessarily near the start
— instead of one 10 frames from the end (the frame taken when len ≥ 10). -/
theorem C10_amended (stack : List Img) (select_rectangle : Img → CropBox)
    (name : String) :
    (stack.length < 5 →
      pyGet stack ((stack.length : ℤ) - 10) = none ∧
      obtain_cropping_boxes select_rectangle [(name, stack)] =
        .error .roiIndexOutOfRange) ∧
    (5 ≤ stack.length → stack.length ≤ 9 →
      pyGet stack ((stack.length : ℤ) - 10) = stack.get? (2 * stack.length - 10)) ∧
    (10 ≤ stack.length →
      pyGet stack ((stack.length : ℤ) - 10) = stack.get? (stack.length - 10)) := by
  refine ⟨?_, ?_, ?_⟩
  · intro h5
    have hnone : pyGet stack ((stack.length : ℤ) - 10) = none := by
      unfold pyGet
      rw [if_neg (by omega), if_neg (by omega)]
    refine ⟨hnone, ?_⟩
    simp only [obtain_cropping_boxes, exceptMapM, hnone]
  · intro h5 h9
    unfold pyGet
    rw [if_neg (by omega), if_pos (by omega)]
    congr 1
    omega
  · intro h10
    unfold pyGet
    rw [if_pos (by omega)]
    congr 1
    omega

/-- Seven-frame stack with distinguishable frames. -/
def exStack7 : List Img := (List.range 7).map (fun k => [[k]])

/-- ROI selector stand-in. -/
def exSelRect : Img → CropBox := fun _ => ⟨0, 0, 1, 1⟩

/-- Witness for C10: a 7-frame stack silently yields the frame at index
`2·7 − 10 = 4`, past the stack's midpoint. -/
theorem C10_witness :
    (5 ≤ exStack7.length ∧ exStack7.length ≤ 9) ∧
    pyGet exStack7 ((exStack7.length : ℤ) - 10) = exStack7.get? (2 * exStack7.length - 10) ∧
    exStack7.get? (2 * exStack7.length - 10) = some [[4]] :=
  ⟨⟨by decide, by decide⟩,
    (C10_amended exStack7 exSelRect "x").2.1 (by decide) (by decide),
    by decide⟩
